import Mathlib

/-!
Verification development for the KZG proof-verification core of morph-l2/kzg-rs
(file src/kzg_proof.rs).

The scalar field, the two curve groups, the pairing, the hash primitive, the
byte decoders and the trusted setup are external collaborators of this core
(supplied by the bls12_381 / sha2 / ff crates and by sibling modules of the
crate).  They are modelled abstractly: an arbitrary field `Fr`, arbitrary
additive groups `G1`, `G2`, an arbitrary pairing map into `GT`, and a bundle
`Backend` of the external capabilities.  The number of field elements per blob
(`NUM_FIELD_ELEMENTS_PER_BLOB`, a crate-level constant equal to 4096 in the
spec) is the parameter `n` throughout; no definition below depends on its
concrete value.
-/

namespace KzgRs

/-- Modelled from the spec: the error taxonomy of the crate (enums.rs is not part
of the verified source).  The source constructs exactly the two variants
`BadArgs` and `InvalidBytesLength`, each carrying a message string. -/
inductive KzgError : Type
  | BadArgs (msg : String)
  | InvalidBytesLength (msg : String)
  deriving DecidableEq

/-- Outcome of a Rust computation: a normal `Result` value (`ok` / `err`) or a
panic (used to model `todo!()` and out-of-bounds indexing). -/
inductive RustOutcome (α : Type) : Type
  | ok (value : α)
  | err (e : KzgError)
  | panicked (msg : String)
  deriving DecidableEq

/-- Embed a `Result` (`Except`) value into `RustOutcome`: a `?`-propagated call
that cannot panic. -/
def RustOutcome.ofExcept {α : Type} : Except KzgError α → RustOutcome α
  | .ok a => .ok a
  | .error e => .err e

/-- Sequence an `Except`-returning call (the `?` operator) in front of a
computation that may panic. -/
def RustOutcome.bindE {α β : Type} : Except KzgError α → (α → RustOutcome β) → RustOutcome β
  | .ok a, f => f a
  | .error e, _ => .err e

/-- A 32-byte buffer (`Bytes32` in dtypes). -/
abbrev Bytes32 : Type := Fin 32 → UInt8

/-- A 48-byte buffer (`Bytes48` in dtypes). -/
abbrev Bytes48 : Type := Fin 48 → UInt8

/-- A blob: `32 * n` raw bytes, where `n` is `NUM_FIELD_ELEMENTS_PER_BLOB`
(the spec fixes `n = 4096`, giving the 131072-byte wire blob). -/
abbrev Blob (n : ℕ) : Type := Fin (32 * n) → UInt8

/-- Modelled from the spec: the external collaborators of the verification core
(curve arithmetic backend, byte decoders, SHA-256, the `ff` crate's
subtract-with-borrow, the crate-level `MODULUS` limbs and domain-separation
tag, and the blob-to-polynomial decoder from dtypes).  None of these live in
the verified source file; the core is proved for every such backend. -/
structure Backend (n : ℕ) (Fr G1 G2 GT : Type) : Type where
  g1gen : G1
  g2gen : G2
  pairing : G1 → G2 → GT
  fromCompressed : Bytes48 → Option G1
  toCompressed : G1 → Fin 48 → UInt8
  scalarFromBytes : Bytes32 → Option Fr
  is_identity : G1 → Bool
  is_on_curve : G1 → Bool
  sha256 : List UInt8 → Fin 32 → UInt8
  sbb : UInt64 → UInt64 → UInt64 → UInt64 × UInt64
  MODULUS : Fin 4 → UInt64
  domainTag : List UInt8
  blobToPoly : Blob n → Except KzgError (List Fr)

/-- Modelled from the spec: the trusted-setup parameters (trusted_setup.rs is
not part of the verified source): the ordered evaluation domain of `n` roots
of unity and the two G2 setup points. -/
structure KzgSettings (n : ℕ) (Fr G2 : Type) : Type where
  roots_of_unity : Fin n → Fr
  g2_points : Fin 2 → G2

variable {n : ℕ} {Fr G1 G2 GT : Type}

/-- Translation of `safe_g1_affine_from_bytes` (kzg_proof.rs lines 16-24). -/
def safe_g1_affine_from_bytes (B : Backend n Fr G1 G2 GT) (bytes : Bytes48) :
    Except KzgError G1 :=
  match B.fromCompressed bytes with
  | none => .error (KzgError.BadArgs "Failed to parse G1Affine from bytes")
  | some g1 => .ok g1

/-- Byte reversal performed by `safe_scalar_affine_from_bytes`: the wire scalar
is big-endian, the backend decoder consumes little-endian bytes. -/
def reverse32 (bytes : Bytes32) : Bytes32 :=
  fun i => bytes ⟨31 - i.1, by omega⟩

/-- Translation of `safe_scalar_affine_from_bytes` (kzg_proof.rs lines 26-41).
The error message is the one the source uses (it mentions G1Affine there too). -/
def safe_scalar_affine_from_bytes (B : Backend n Fr G1 G2 GT) (bytes : Bytes32) :
    Except KzgError Fr :=
  match B.scalarFromBytes (reverse32 bytes) with
  | none => .error (KzgError.BadArgs "Failed to parse G1Affine from bytes")
  | some scalar => .ok scalar

/-- Modelled from the spec: `u64::to_be_bytes` (std), eight big-endian bytes. -/
def u64beBytes (x : UInt64) : List UInt8 :=
  [UInt8.ofNat (x.toNat / 2 ^ 56), UInt8.ofNat (x.toNat / 2 ^ 48),
   UInt8.ofNat (x.toNat / 2 ^ 40), UInt8.ofNat (x.toNat / 2 ^ 32),
   UInt8.ofNat (x.toNat / 2 ^ 24), UInt8.ofNat (x.toNat / 2 ^ 16),
   UInt8.ofNat (x.toNat / 2 ^ 8), UInt8.ofNat x.toNat]

/-- The bytes of a fixed-size buffer, in index order. -/
def bytesOfFn {k : ℕ} (f : Fin k → UInt8) : List UInt8 :=
  (List.finRange k).map f

/-- Modelled from the spec: the crate constant `BYTES_PER_BLOB = 32 * N`. -/
def BYTES_PER_BLOB (n : ℕ) : ℕ := 32 * n

/-- Modelled from the spec: the crate constant `BYTES_PER_COMMITMENT = 48`. -/
def BYTES_PER_COMMITMENT : ℕ := 48

/-- Modelled from the spec: the crate constant `DOMAIN_STR_LENGTH`, the length
of the domain-separation tag. -/
def DOMAIN_STR_LENGTH (B : Backend n Fr G1 G2 GT) : ℕ := B.domainTag.length

/-- Modelled from the spec: the crate constant `CHALLENGE_INPUT_SIZE`: tag,
16-byte degree encoding, blob bytes, compressed commitment bytes. -/
def CHALLENGE_INPUT_SIZE (B : Backend n Fr G1 G2 GT) : ℕ :=
  DOMAIN_STR_LENGTH B + 16 + BYTES_PER_BLOB n + BYTES_PER_COMMITMENT

/-- The Fiat-Shamir transcript assembled by `compute_challenge` (kzg_proof.rs
lines 45-64): domain tag, 8-byte big-endian zero, 8-byte big-endian `n`,
raw blob bytes, compressed commitment bytes. -/
def challengeTranscript (B : Backend n Fr G1 G2 GT) (blob : Blob n) (commitment : G1) :
    List UInt8 :=
  B.domainTag ++ u64beBytes 0 ++ u64beBytes (UInt64.ofNat n) ++
    bytesOfFn blob ++ bytesOfFn (B.toCompressed commitment)

/-- Modelled from the spec: `u64::from_be_bytes` (std) on an 8-byte buffer. -/
def u64beOfBytes (f : Fin 8 → UInt8) : UInt64 :=
  UInt64.ofNat
    ((((((((f 0).toNat * 256 + (f 1).toNat) * 256 + (f 2).toNat) * 256 +
      (f 3).toNat) * 256 + (f 4).toNat) * 256 + (f 5).toNat) * 256 +
      (f 6).toNat) * 256 + (f 7).toNat)

/-- Modelled from the spec: `bls12_381::Scalar::from_raw`, which converts four
little-endian 64-bit limbs into the scalar-field element congruent to their
256-bit value (full modular reduction is performed by the Montgomery
conversion inside the backend). -/
def from_raw [CommRing Fr] (limbs : Fin 4 → UInt64) : Fr :=
  (((limbs 0).toNat + (limbs 1).toNat * 2 ^ 64 + (limbs 2).toNat * 2 ^ 128 +
    (limbs 3).toNat * 2 ^ 192 : ℕ) : Fr)

/-- Translation of `scalar_from_u64_array_unchecked` (kzg_proof.rs lines
89-97): a chain of subtract-with-borrow steps against `MODULUS` whose results
are all discarded, followed by `Scalar::from_raw` on the reversed limbs. -/
def scalar_from_u64_array_unchecked [CommRing Fr] (B : Backend n Fr G1 G2 GT)
    (array : Fin 4 → UInt64) : Fr :=
  let borrow0 := (B.sbb (array 0) (B.MODULUS 0) 0).2
  let borrow1 := (B.sbb (array 1) (B.MODULUS 1) borrow0).2
  let borrow2 := (B.sbb (array 2) (B.MODULUS 2) borrow1).2
  let _borrow3 := (B.sbb (array 3) (B.MODULUS 3) borrow2).2
  from_raw ![array 3, array 2, array 1, array 0]

/-- Translation of `scalar_from_bytes_unchecked` (kzg_proof.rs lines 80-87):
the 32-byte digest as four big-endian 64-bit words. -/
def scalar_from_bytes_unchecked [CommRing Fr] (B : Backend n Fr G1 G2 GT)
    (bytes : Fin 32 → UInt8) : Fr :=
  scalar_from_u64_array_unchecked B
    ![u64beOfBytes ![bytes 0, bytes 1, bytes 2, bytes 3,
        bytes 4, bytes 5, bytes 6, bytes 7],
      u64beOfBytes ![bytes 8, bytes 9, bytes 10, bytes 11,
        bytes 12, bytes 13, bytes 14, bytes 15],
      u64beOfBytes ![bytes 16, bytes 17, bytes 18, bytes 19,
        bytes 20, bytes 21, bytes 22, bytes 23],
      u64beOfBytes ![bytes 24, bytes 25, bytes 26, bytes 27,
        bytes 28, bytes 29, bytes 30, bytes 31]]

/-- Translation of `compute_challenge` (kzg_proof.rs lines 44-78).  The buffer
writes are fixed-size `copy_from_slice` calls, so the assembled transcript is
`challengeTranscript` and the running offset is the sum of the section
lengths; the source then checks the offset against `CHALLENGE_INPUT_SIZE`
before hashing. -/
def compute_challenge [CommRing Fr] (B : Backend n Fr G1 G2 GT) (blob : Blob n)
    (commitment : G1) : Except KzgError Fr :=
  let offset := DOMAIN_STR_LENGTH B + 8 + 8 + BYTES_PER_BLOB n + BYTES_PER_COMMITMENT
  if offset ≠ CHALLENGE_INPUT_SIZE B then
    .error (KzgError.InvalidBytesLength "The challenge input size is incorrect")
  else
    .ok (scalar_from_bytes_unchecked B (B.sha256 (challengeTranscript B blob commitment)))

/-- Forward pass of `batch_inversion` (kzg_proof.rs lines 155-158): stores the
running prefix products into the output buffer and returns the final
accumulated product. -/
def fwdLoop [Field Fr] (acc : Fr) : List Fr → List Fr × Fr
  | [] => ([], acc)
  | a :: rest =>
    let r := fwdLoop (acc * a) rest
    (acc :: r.1, r.2)

/-- Backward pass of `batch_inversion` (kzg_proof.rs lines 166-169): walks the
indices from high to low, multiplying each stored prefix by the running
inverse accumulator and folding the inputs back into it. -/
def bwdLoop [Field Fr] : List Fr → List Fr → Fr → List Fr × Fr
  | o :: os, a :: as', acc =>
    let r := bwdLoop os as' acc
    (o * r.2 :: r.1, r.2 * a)
  | os, _, acc => (os, acc)

/-- Translation of `batch_inversion` (kzg_proof.rs lines 146-172).  `out` is
the initial contents of the output buffer and `a` the input slice; the
`NonZeroUsize` length argument of the source equals the common length of both
slices at every call site, so the loops are modelled as full traversals of
`a`.  The first guard is the source's `a == out` slice comparison (contents,
not storage). -/
def batch_inversion [Field Fr] [DecidableEq Fr] (out a : List Fr) :
    Except KzgError (List Fr) :=
  if a = out then
    .error (KzgError.BadArgs "Destination is the same as source")
  else
    let fwd := fwdLoop 1 a
    if fwd.2 = 0 then
      .error (KzgError.BadArgs "Zero input")
    else
      .ok (bwdLoop fwd.1 a fwd.2⁻¹).1

/-- First loop of `evaluate_polynomial_in_evaluation_form` (kzg_proof.rs lines
115-124), over the given index list: at each index, either return the stored
evaluation early (`x` hits the domain node) or record the difference
`x - roots_of_unity[i]` for the batch inversion. -/
def evalEarlyOrDiffs [Field Fr] [DecidableEq Fr] (x : Fr) (dom : Fin n → Fr)
    (poly : List Fr) : List (Fin n) → Sum Fr (List Fr)
  | [] => Sum.inr []
  | i :: rest =>
    if x = dom i then Sum.inl (poly.getD i.1 0)
    else
      match evalEarlyOrDiffs x dom poly rest with
      | Sum.inl y => Sum.inl y
      | Sum.inr ds => Sum.inr ((x - dom i) :: ds)

/-- Body of `evaluate_polynomial_in_evaluation_form` (kzg_proof.rs lines
100-144), generalized over the batch-inversion routine it invokes (the source
calls `batch_inversion`; quantifying over the routine makes "no inversion is
performed on the early-return path" a provable statement).  The output buffer
`inverses` starts as `n` default (zero) scalars, exactly as in the source. -/
def evaluateGen [Field Fr] [DecidableEq Fr]
    (bi : List Fr → List Fr → Except KzgError (List Fr))
    (polynomial : List Fr) (x : Fr) (kzg_settings : KzgSettings n Fr G2) :
    Except KzgError Fr :=
  if polynomial.length ≠ n then
    .error (KzgError.InvalidBytesLength "The polynomial length is incorrect")
  else
    match evalEarlyOrDiffs x kzg_settings.roots_of_unity polynomial (List.finRange n) with
    | Sum.inl v => .ok v
    | Sum.inr inverses_in => do
      let inverses ← bi (List.replicate n 0) inverses_in
      let out := (List.finRange n).foldl
        (fun acc i =>
          acc + inverses.getD i.1 0 * kzg_settings.roots_of_unity i * polynomial.getD i.1 0)
        0
      let out := out * ((n : Fr))⁻¹
      let out := out * (x ^ n - 1)
      pure out

/-- Translation of `evaluate_polynomial_in_evaluation_form` (kzg_proof.rs lines
100-144): the generalized body applied to the source's `batch_inversion`. -/
def evaluate_polynomial_in_evaluation_form [Field Fr] [DecidableEq Fr]
    (polynomial : List Fr) (x : Fr) (kzg_settings : KzgSettings n Fr G2) :
    Except KzgError Fr :=
  evaluateGen batch_inversion polynomial x kzg_settings

/-- Modelled from the spec: `pairings_verify` (crate root, not in the verified
source) checks the equality of the two pairings. -/
def pairings_verify [DecidableEq GT] (B : Backend n Fr G1 G2 GT)
    (a1 : G1) (a2 : G2) (b1 : G1) (b2 : G2) : Bool :=
  decide (B.pairing a1 a2 = B.pairing b1 b2)

/-- Translation of `verify_kzg_proof_impl` (kzg_proof.rs lines 174-194). -/
def verify_kzg_proof_impl [DecidableEq GT] [SMul Fr G1] [SMul Fr G2]
    [Sub G1] [Sub G2] (B : Backend n Fr G1 G2 GT)
    (commitment : G1) (z y : Fr) (proof : G1) (kzg_settings : KzgSettings n Fr G2) :
    Except KzgError Bool :=
  let x := z • B.g2gen
  let x_minus_z := kzg_settings.g2_points 1 - x
  let y1 := y • B.g1gen
  let p_minus_y := commitment - y1
  .ok (pairings_verify B p_minus_y B.g2gen proof x_minus_z)

/-- Translation of `validate_batched_input` (kzg_proof.rs lines 196-213): both
scans are computed, and the commitment error takes priority. -/
def validate_batched_input (B : Backend n Fr G1 G2 GT) (commitments proofs : List G1) :
    Except KzgError Unit :=
  let invalid_commitment :=
    commitments.any (fun commitment => !(B.is_identity commitment) && !(B.is_on_curve commitment))
  let invalid_proof :=
    proofs.any (fun proof => !(B.is_identity proof) && !(B.is_on_curve proof))
  if invalid_commitment then .error (KzgError.BadArgs "Invalid commitment")
  else if invalid_proof then .error (KzgError.BadArgs "Invalid proof")
  else .ok ()

/-- Translation of `compute_challenges_and_evaluate_polynomial` (kzg_proof.rs
lines 215-234): per item, decode the blob to its polynomial, derive the
Fiat-Shamir challenge, evaluate, and collect the challenge/evaluation pairs.
The source indexes `commitments[i]` for `i` below `blobs.len()`; at its only
call site both lists have equal length, which the zip realizes. -/
def compute_challenges_and_evaluate_polynomial [Field Fr] [DecidableEq Fr]
    (B : Backend n Fr G1 G2 GT) (blobs : List (Blob n)) (commitments : List G1)
    (kzg_settings : KzgSettings n Fr G2) : Except KzgError (List Fr × List Fr) := do
  let pairs ← (blobs.zip commitments).mapM (fun bc => do
    let polynomial ← B.blobToPoly bc.1
    let evaluation_challenge ← compute_challenge B bc.1 bc.2
    let y ← evaluate_polynomial_in_evaluation_form polynomial evaluation_challenge kzg_settings
    pure (evaluation_challenge, y))
  pure (pairs.map Prod.fst, pairs.map Prod.snd)

/-- Translation of `KzgProof::verify_kzg_proof` (kzg_proof.rs lines 239-281):
decode the four byte inputs in source order, then check the pairing equation
directly. -/
def verify_kzg_proof [CommRing Fr] [DecidableEq GT] [SMul Fr G1] [SMul Fr G2]
    [Sub G1] [Sub G2] (B : Backend n Fr G1 G2 GT)
    (commitment_bytes : Bytes48) (z_bytes y_bytes : Bytes32) (proof_bytes : Bytes48)
    (kzg_settings : KzgSettings n Fr G2) : Except KzgError Bool := do
  let z ← safe_scalar_affine_from_bytes B z_bytes
  let y ← safe_scalar_affine_from_bytes B y_bytes
  let commitment ← safe_g1_affine_from_bytes B commitment_bytes
  let proof ← safe_g1_affine_from_bytes B proof_bytes
  let g2_x := z • B.g2gen
  let x_minus_z := kzg_settings.g2_points 1 - g2_x
  let g1_y := y • B.g1gen
  let p_minus_y := commitment - g1_y
  pure (decide (B.pairing p_minus_y B.g2gen = B.pairing proof x_minus_z))

/-- Translation of `KzgProof::verify_kzg_proof_batch` (kzg_proof.rs lines
283-291): the body is `todo!()`, which panics with "not yet implemented". -/
def verify_kzg_proof_batch (_B : Backend n Fr G1 G2 GT)
    (_commitments : List G1) (_zs _ys : List Fr) (_proofs : List G1)
    (_kzg_settings : KzgSettings n Fr G2) : RustOutcome Bool :=
  RustOutcome.panicked "not yet implemented"

/-- Translation of `KzgProof::verify_blob_kzg_proof` (kzg_proof.rs lines
293-310). -/
def verify_blob_kzg_proof [Field Fr] [DecidableEq Fr] [DecidableEq GT]
    [SMul Fr G1] [SMul Fr G2] [Sub G1] [Sub G2] (B : Backend n Fr G1 G2 GT)
    (blob : Blob n) (commitment_bytes proof_bytes : Bytes48)
    (kzg_settings : KzgSettings n Fr G2) : Except KzgError Bool := do
  let commitment ← safe_g1_affine_from_bytes B commitment_bytes
  let polynomial ← B.blobToPoly blob
  let proof ← safe_g1_affine_from_bytes B proof_bytes
  let evaluation_challenge ← compute_challenge B blob commitment
  let y ← evaluate_polynomial_in_evaluation_form polynomial evaluation_challenge kzg_settings
  verify_kzg_proof_impl B commitment evaluation_challenge y proof kzg_settings

/-- Translation of `KzgProof::verify_blob_kzg_proof_batch` (kzg_proof.rs lines
312-367): empty fast path, single-item delegation (indexing the first elements
of all three lists, a panic when one of the other two is empty), the two
length checks, decoding of all commitments and proofs, batched input
validation, per-item challenges/evaluations, and the final call into the
unimplemented `verify_kzg_proof_batch`. -/
def verify_blob_kzg_proof_batch [Field Fr] [DecidableEq Fr] [DecidableEq GT]
    [SMul Fr G1] [SMul Fr G2] [Sub G1] [Sub G2] (B : Backend n Fr G1 G2 GT)
    (blobs : List (Blob n)) (commitments_bytes proofs_bytes : List Bytes48)
    (kzg_settings : KzgSettings n Fr G2) : RustOutcome Bool :=
  if blobs.isEmpty then .ok true
  else if blobs.length = 1 then
    match blobs.head?, commitments_bytes.head?, proofs_bytes.head? with
    | some b, some c, some p =>
      RustOutcome.ofExcept (verify_blob_kzg_proof B b c p kzg_settings)
    | _, _, _ => .panicked "index out of bounds"
  else if blobs.length ≠ commitments_bytes.length then
    .err (KzgError.InvalidBytesLength "Invalid commitments length")
  else if blobs.length ≠ proofs_bytes.length then
    .err (KzgError.InvalidBytesLength "Invalid proofs length")
  else
    RustOutcome.bindE (commitments_bytes.mapM (safe_g1_affine_from_bytes B)) fun commitments =>
    RustOutcome.bindE (proofs_bytes.mapM (safe_g1_affine_from_bytes B)) fun proofs =>
    RustOutcome.bindE (validate_batched_input B commitments proofs) fun _ =>
    RustOutcome.bindE
      (compute_challenges_and_evaluate_polynomial B blobs commitments kzg_settings)
      fun ce =>
    verify_kzg_proof_batch B commitments ce.1 ce.2 proofs kzg_settings

section BatchInversionLemmas

variable [Field Fr]

theorem fwdLoop_snd (a : List Fr) : ∀ c : Fr, (fwdLoop c a).2 = c * a.prod := by
  induction a with
  | nil => intro c; simp [fwdLoop]
  | cons x xs ih => intro c; simp [fwdLoop, ih, List.prod_cons, mul_assoc]

theorem fwdLoop_length (a : List Fr) : ∀ c : Fr, (fwdLoop c a).1.length = a.length := by
  induction a with
  | nil => intro c; simp [fwdLoop]
  | cons x xs ih => intro c; simp [fwdLoop, ih]

theorem fwdLoop_get (a : List Fr) :
    ∀ (c : Fr) (i : ℕ) (h : i < (fwdLoop c a).1.length),
      (fwdLoop c a).1.get ⟨i, h⟩ = c * (a.take i).prod := by
  induction a with
  | nil => intro c i h; simp [fwdLoop] at h
  | cons x xs ih =>
    intro c i h
    match i with
    | 0 => simp [fwdLoop]
    | i + 1 =>
      have h' : i < (fwdLoop (c * x) xs).1.length := by
        simpa [fwdLoop] using h
      have := ih (c * x) i h'
      simp only [fwdLoop, List.get_cons_succ, List.take_succ_cons, List.prod_cons]
      rw [this]; ring

theorem bwdLoop_snd (os : List Fr) :
    ∀ (a : List Fr) (c : Fr), os.length = a.length → (bwdLoop os a c).2 = c * a.prod := by
  induction os with
  | nil =>
    intro a c h
    have : a = [] := by
      cases a with
      | nil => rfl
      | cons x xs => simp at h
    subst this; simp [bwdLoop]
  | cons o os ih =>
    intro a c h
    cases a with
    | nil => simp at h
    | cons x xs =>
      have h' : os.length = xs.length := by simpa using h
      simp only [bwdLoop, List.prod_cons]
      rw [ih xs c h']; ring

theorem bwdLoop_length (os : List Fr) :
    ∀ (a : List Fr) (c : Fr), (bwdLoop os a c).1.length = os.length := by
  induction os with
  | nil => intro a c; cases a <;> simp [bwdLoop]
  | cons o os ih =>
    intro a c
    cases a with
    | nil => simp [bwdLoop]
    | cons x xs => simp [bwdLoop, ih]

theorem bwdLoop_get (os : List Fr) :
    ∀ (a : List Fr) (c : Fr), os.length = a.length →
      ∀ (i : ℕ) (h : i < (bwdLoop os a c).1.length) (h2 : i < os.length),
        (bwdLoop os a c).1.get ⟨i, h⟩ = os.get ⟨i, h2⟩ * (c * (a.drop (i + 1)).prod) := by
  induction os with
  | nil => intro a c hlen i h h2; simp at h2
  | cons o os ih =>
    intro a c hlen i h h2
    cases a with
    | nil => simp at hlen
    | cons x xs =>
      have h' : os.length = xs.length := by simpa using hlen
      match i with
      | 0 =>
        simp only [bwdLoop, List.drop_succ_cons, List.drop_zero]
        rw [bwdLoop_snd os xs c h']
        simp
      | i + 1 =>
        have hi : i < (bwdLoop os xs c).1.length := by
          simpa [bwdLoop] using h
        have hi2 : i < os.length := by simpa using h2
        simp only [bwdLoop, List.get_cons_succ, List.drop_succ_cons]
        exact ih xs c h' i hi hi2

theorem batch_inversion_zero_iff [DecidableEq Fr] (out a : List Fr) (hne : a ≠ out) :
    batch_inversion out a = .error (KzgError.BadArgs "Zero input") ↔ (0 : Fr) ∈ a := by
  rw [batch_inversion, if_neg hne]
  simp only [fwdLoop_snd, one_mul]
  by_cases hz : a.prod = 0
  · simp [hz, List.prod_eq_zero_iff.mp hz]
  · have : (0 : Fr) ∉ a := fun hm => hz (List.prod_eq_zero hm)
    simp [hz, this]

theorem batch_inversion_ok [DecidableEq Fr] (out a : List Fr) (hne : a ≠ out) (hz : (0 : Fr) ∉ a) :
    ∃ res : List Fr, batch_inversion out a = .ok res ∧ res.length = a.length ∧
      ∀ (i : ℕ) (h : i < a.length) (h' : i < res.length),
        res.get ⟨i, h'⟩ = (a.get ⟨i, h⟩)⁻¹ := by
  have hprod : a.prod ≠ 0 := fun h => hz (List.prod_eq_zero_iff.mp h)
  rw [batch_inversion, if_neg hne]
  simp only [fwdLoop_snd, one_mul, if_neg hprod]
  refine ⟨_, rfl, ?_, ?_⟩
  · rw [bwdLoop_length, fwdLoop_length]
  · intro i h h'
    have hfl : i < (fwdLoop (1 : Fr) a).1.length := by rw [fwdLoop_length]; exact h
    rw [bwdLoop_get _ a _ (fwdLoop_length a 1) i h' hfl, fwdLoop_get a 1 i hfl, one_mul]
    set g := a.get ⟨i, h⟩ with hg
    have hdecomp : a.prod = (a.take i).prod * (g * (a.drop (i + 1)).prod) := by
      conv_lhs => rw [← List.take_append_drop i a]
      rw [List.prod_append, List.drop_eq_getElem_cons h, List.prod_cons, hg,
        List.get_eq_getElem]
    have hgne : g ≠ 0 := fun h0 => hz (h0 ▸ List.get_mem a i h)
    have htne : (a.take i).prod ≠ 0 := by
      intro h0
      exact hprod (by rw [hdecomp, h0, zero_mul])
    have hdne : (a.drop (i + 1)).prod ≠ 0 := by
      intro h0
      exact hprod (by rw [hdecomp, h0, mul_zero, mul_zero])
    rw [hdecomp]
    field_simp
    ring

end BatchInversionLemmas

section EvaluationLemmas

variable [Field Fr] [DecidableEq Fr]

theorem evalEarlyOrDiffs_no_hit (x : Fr) (dom : Fin n → Fr) (poly : List Fr)
    (l : List (Fin n)) (hx : ∀ i ∈ l, x ≠ dom i) :
    evalEarlyOrDiffs x dom poly l = Sum.inr (l.map fun i => x - dom i) := by
  induction l with
  | nil => simp [evalEarlyOrDiffs]
  | cons j rest ih =>
    have hj : x ≠ dom j := hx j (List.mem_cons_self j rest)
    rw [evalEarlyOrDiffs, if_neg hj, ih (fun i hi => hx i (List.mem_cons_of_mem j hi))]
    simp

theorem evalEarlyOrDiffs_hit (x : Fr) (dom : Fin n → Fr) (poly : List Fr)
    (i : Fin n) (hx : x = dom i) (huniq : ∀ j : Fin n, x = dom j → j = i) :
    ∀ l : List (Fin n), i ∈ l →
      evalEarlyOrDiffs x dom poly l = Sum.inl (poly.getD i.1 0) := by
  intro l
  induction l with
  | nil => intro h; simp at h
  | cons j rest ih =>
    intro hmem
    by_cases hj : x = dom j
    · have : j = i := huniq j hj
      subst this
      rw [evalEarlyOrDiffs, if_pos hj]
    · have hir : i ∈ rest := by
        rcases List.mem_cons.mp hmem with h | h
        · exact absurd (h ▸ hx) hj
        · exact h
      rw [evalEarlyOrDiffs, if_neg hj, ih hir]

omit [DecidableEq Fr] in
theorem foldl_add_eq_sum (f : Fin n → Fr) :
    (List.finRange n).foldl (fun acc i => acc + f i) 0 = ∑ i : Fin n, f i := by
  rw [Fin.sum_univ_def, List.sum_eq_foldl, List.foldl_map]

/-- On the early-return path the result does not depend on the inversion
routine: for every polynomial of full length, every index into a duplicate-free
domain, and every batch-inversion routine `bi`, evaluating at the domain node
returns the stored value directly. -/
theorem evaluateGen_at_node (kzg_settings : KzgSettings n Fr G2) (poly : List Fr)
    (i : Fin n) (hlen : poly.length = n)
    (hinj : Function.Injective kzg_settings.roots_of_unity)
    (bi : List Fr → List Fr → Except KzgError (List Fr)) :
    evaluateGen bi poly (kzg_settings.roots_of_unity i) kzg_settings =
      .ok (poly.getD i.1 0) := by
  rw [evaluateGen, if_neg (by omega)]
  rw [evalEarlyOrDiffs_hit _ _ _ i rfl (fun j hj => hinj hj.symm) _ (List.mem_finRange i)]

theorem evaluate_general_value (kzg_settings : KzgSettings n Fr G2) (poly : List Fr)
    (x : Fr) (hlen : poly.length = n)
    (hx : ∀ i : Fin n, x ≠ kzg_settings.roots_of_unity i) (hn : (n : Fr) ≠ 0) :
    evaluate_polynomial_in_evaluation_form poly x kzg_settings =
      .ok ((n : Fr)⁻¹ * (x ^ n - 1) *
        ∑ i : Fin n, (x - kzg_settings.roots_of_unity i)⁻¹ * kzg_settings.roots_of_unity i *
          poly.getD i.1 0) := by
  have hn0 : n ≠ 0 := by
    intro h
    subst h
    exact hn (by norm_num)
  have hdlen : ((List.finRange n).map fun i => x - kzg_settings.roots_of_unity i).length = n := by
    simp
  have hne : ((List.finRange n).map fun i => x - kzg_settings.roots_of_unity i) ≠
      List.replicate n 0 := by
    intro h
    have h0 : 0 < n := Nat.pos_of_ne_zero hn0
    have hmem : x - kzg_settings.roots_of_unity ⟨0, h0⟩ ∈
        (List.finRange n).map fun i => x - kzg_settings.roots_of_unity i :=
      List.mem_map_of_mem _ (List.mem_finRange _)
    rw [h] at hmem
    exact (sub_ne_zero.mpr (hx ⟨0, h0⟩)) (List.eq_of_mem_replicate hmem)
  have hz : (0 : Fr) ∉ (List.finRange n).map fun i => x - kzg_settings.roots_of_unity i := by
    intro hmem
    rw [List.mem_map] at hmem
    obtain ⟨i, _, hi⟩ := hmem
    exact (sub_ne_zero.mpr (hx i)) hi
  obtain ⟨res, hres, hreslen, hresget⟩ :=
    batch_inversion_ok (List.replicate n 0)
      ((List.finRange n).map fun i => x - kzg_settings.roots_of_unity i) hne hz
  have hval : ∀ i : Fin n,
      res.getD i.1 0 = (x - kzg_settings.roots_of_unity i)⁻¹ := by
    intro i
    have hd : i.1 < ((List.finRange n).map fun i => x - kzg_settings.roots_of_unity i).length := by
      rw [hdlen]; exact i.isLt
    have hr : i.1 < res.length := by rw [hreslen, hdlen]; exact i.isLt
    have h1 : res.getD i.1 0 = res.get ⟨i.1, hr⟩ := by
      rw [List.getD_eq_getElem res 0 hr]
      rfl
    rw [h1, hresget i.1 hd hr]
    congr 1
    simp [List.get_eq_getElem]
  rw [evaluate_polynomial_in_evaluation_form, evaluateGen, if_neg (by omega)]
  rw [evalEarlyOrDiffs_no_hit x _ poly _ (fun i _ => hx i)]
  simp only [hres, Except.bind, bind, pure]
  refine congrArg Except.ok ?_
  rw [foldl_add_eq_sum
    (fun i => res.getD i.1 0 * kzg_settings.roots_of_unity i * poly.getD i.1 0)]
  rw [Finset.sum_congr rfl (fun i _ => by rw [hval i])]
  ring

end EvaluationLemmas

section ScalarAssembly

/-- The 32-byte digest read as a 256-bit big-endian natural number. -/
def digestBeNat (d : Fin 32 → UInt8) : ℕ :=
  (List.finRange 32).foldl (fun acc k => acc * 256 + (d k).toNat) 0

theorem scalar_from_bytes_value [CommRing Fr] (B : Backend n Fr G1 G2 GT)
    (d : Fin 32 → UInt8) :
    scalar_from_bytes_unchecked B d = ((digestBeNat d : ℕ) : Fr) := by
  have hb0 : (d 0).toNat < 256 := UInt8.toNat_lt (d 0)
  have hb1 : (d 1).toNat < 256 := UInt8.toNat_lt (d 1)
  have hb2 : (d 2).toNat < 256 := UInt8.toNat_lt (d 2)
  have hb3 : (d 3).toNat < 256 := UInt8.toNat_lt (d 3)
  have hb4 : (d 4).toNat < 256 := UInt8.toNat_lt (d 4)
  have hb5 : (d 5).toNat < 256 := UInt8.toNat_lt (d 5)
  have hb6 : (d 6).toNat < 256 := UInt8.toNat_lt (d 6)
  have hb7 : (d 7).toNat < 256 := UInt8.toNat_lt (d 7)
  have hb8 : (d 8).toNat < 256 := UInt8.toNat_lt (d 8)
  have hb9 : (d 9).toNat < 256 := UInt8.toNat_lt (d 9)
  have hb10 : (d 10).toNat < 256 := UInt8.toNat_lt (d 10)
  have hb11 : (d 11).toNat < 256 := UInt8.toNat_lt (d 11)
  have hb12 : (d 12).toNat < 256 := UInt8.toNat_lt (d 12)
  have hb13 : (d 13).toNat < 256 := UInt8.toNat_lt (d 13)
  have hb14 : (d 14).toNat < 256 := UInt8.toNat_lt (d 14)
  have hb15 : (d 15).toNat < 256 := UInt8.toNat_lt (d 15)
  have hb16 : (d 16).toNat < 256 := UInt8.toNat_lt (d 16)
  have hb17 : (d 17).toNat < 256 := UInt8.toNat_lt (d 17)
  have hb18 : (d 18).toNat < 256 := UInt8.toNat_lt (d 18)
  have hb19 : (d 19).toNat < 256 := UInt8.toNat_lt (d 19)
  have hb20 : (d 20).toNat < 256 := UInt8.toNat_lt (d 20)
  have hb21 : (d 21).toNat < 256 := UInt8.toNat_lt (d 21)
  have hb22 : (d 22).toNat < 256 := UInt8.toNat_lt (d 22)
  have hb23 : (d 23).toNat < 256 := UInt8.toNat_lt (d 23)
  have hb24 : (d 24).toNat < 256 := UInt8.toNat_lt (d 24)
  have hb25 : (d 25).toNat < 256 := UInt8.toNat_lt (d 25)
  have hb26 : (d 26).toNat < 256 := UInt8.toNat_lt (d 26)
  have hb27 : (d 27).toNat < 256 := UInt8.toNat_lt (d 27)
  have hb28 : (d 28).toNat < 256 := UInt8.toNat_lt (d 28)
  have hb29 : (d 29).toNat < 256 := UInt8.toNat_lt (d 29)
  have hb30 : (d 30).toNat < 256 := UInt8.toNat_lt (d 30)
  have hb31 : (d 31).toNat < 256 := UInt8.toNat_lt (d 31)
  have h1 : scalar_from_bytes_unchecked B d =
      (((((((((((d 24).toNat * 256 + (d 25).toNat) * 256 + (d 26).toNat) * 256 + (d 27).toNat) * 256 + (d 28).toNat) * 256 + (d 29).toNat) * 256 + (d 30).toNat) * 256 + (d 31).toNat)) % 2 ^ 64 +
        ((((((((((d 16).toNat * 256 + (d 17).toNat) * 256 + (d 18).toNat) * 256 + (d 19).toNat) * 256 + (d 20).toNat) * 256 + (d 21).toNat) * 256 + (d 22).toNat) * 256 + (d 23).toNat)) % 2 ^ 64) * 2 ^ 64 +
        ((((((((((d 8).toNat * 256 + (d 9).toNat) * 256 + (d 10).toNat) * 256 + (d 11).toNat) * 256 + (d 12).toNat) * 256 + (d 13).toNat) * 256 + (d 14).toNat) * 256 + (d 15).toNat)) % 2 ^ 64) * 2 ^ 128 +
        ((((((((((d 0).toNat * 256 + (d 1).toNat) * 256 + (d 2).toNat) * 256 + (d 3).toNat) * 256 + (d 4).toNat) * 256 + (d 5).toNat) * 256 + (d 6).toNat) * 256 + (d 7).toNat)) % 2 ^ 64) * 2 ^ 192 : ℕ) : Fr) := by rfl
  have hdig : digestBeNat d =
      (((((((((((((((((((((((((((((((0 * 256 + (d 0).toNat) * 256 + (d 1).toNat) * 256 + (d 2).toNat) * 256 + (d 3).toNat) * 256 + (d 4).toNat) * 256 + (d 5).toNat) * 256 + (d 6).toNat) * 256 + (d 7).toNat) * 256 + (d 8).toNat) * 256 + (d 9).toNat) * 256 + (d 10).toNat) * 256 + (d 11).toNat) * 256 + (d 12).toNat) * 256 + (d 13).toNat) * 256 + (d 14).toNat) * 256 + (d 15).toNat) * 256 + (d 16).toNat) * 256 + (d 17).toNat) * 256 + (d 18).toNat) * 256 + (d 19).toNat) * 256 + (d 20).toNat) * 256 + (d 21).toNat) * 256 + (d 22).toNat) * 256 + (d 23).toNat) * 256 + (d 24).toNat) * 256 + (d 25).toNat) * 256 + (d 26).toNat) * 256 + (d 27).toNat) * 256 + (d 28).toNat) * 256 + (d 29).toNat) * 256 + (d 30).toNat) * 256 + (d 31).toNat := by rfl
  rw [h1]
  refine congrArg Nat.cast ?_
  rw [Nat.mod_eq_of_lt (a := ((((((((d 0).toNat * 256 + (d 1).toNat) * 256 + (d 2).toNat) * 256 + (d 3).toNat) * 256 + (d 4).toNat) * 256 + (d 5).toNat) * 256 + (d 6).toNat) * 256 + (d 7).toNat)) (by omega)]
  rw [Nat.mod_eq_of_lt (a := ((((((((d 8).toNat * 256 + (d 9).toNat) * 256 + (d 10).toNat) * 256 + (d 11).toNat) * 256 + (d 12).toNat) * 256 + (d 13).toNat) * 256 + (d 14).toNat) * 256 + (d 15).toNat)) (by omega)]
  rw [Nat.mod_eq_of_lt (a := ((((((((d 16).toNat * 256 + (d 17).toNat) * 256 + (d 18).toNat) * 256 + (d 19).toNat) * 256 + (d 20).toNat) * 256 + (d 21).toNat) * 256 + (d 22).toNat) * 256 + (d 23).toNat)) (by omega)]
  rw [Nat.mod_eq_of_lt (a := ((((((((d 24).toNat * 256 + (d 25).toNat) * 256 + (d 26).toNat) * 256 + (d 27).toNat) * 256 + (d 28).toNat) * 256 + (d 29).toNat) * 256 + (d 30).toNat) * 256 + (d 31).toNat)) (by omega)]
  rw [hdig]
  ring

end ScalarAssembly

section ChallengeLemmas

theorem compute_challenge_ok [CommRing Fr] (B : Backend n Fr G1 G2 GT)
    (blob : Blob n) (commitment : G1) :
    compute_challenge B blob commitment =
      .ok ((digestBeNat (B.sha256 (challengeTranscript B blob commitment)) : Fr)) := by
  rw [compute_challenge, if_neg, scalar_from_bytes_value]
  simp only [CHALLENGE_INPUT_SIZE, DOMAIN_STR_LENGTH, BYTES_PER_BLOB, BYTES_PER_COMMITMENT]
  omega

end ChallengeLemmas

section ValidationLemmas

theorem validate_batched_input_eq (B : Backend n Fr G1 G2 GT) (commitments proofs : List G1) :
    validate_batched_input B commitments proofs =
      if commitments.any (fun c => !(B.is_identity c) && !(B.is_on_curve c)) then
        .error (KzgError.BadArgs "Invalid commitment")
      else if proofs.any (fun p => !(B.is_identity p) && !(B.is_on_curve p)) then
        .error (KzgError.BadArgs "Invalid proof")
      else .ok () := rfl

end ValidationLemmas

section SpecSide

/-- Modelled from the spec: the pairing identity of `verifySingle`, written from
the spec's words (section 4.5): the pairing of `commitment - y * G1generator`
with the G2 generator equals the pairing of `proof` with
`setup.g2[1] - z * G2generator`. -/
abbrev spec_single_pairing_identity [SMul Fr G1] [SMul Fr G2] [Sub G1] [Sub G2]
    (B : Backend n Fr G1 G2 GT) (kzg_settings : KzgSettings n Fr G2)
    (commitment : G1) (z y : Fr) (proof : G1) : Prop :=
  B.pairing (commitment - y • B.g1gen) B.g2gen =
    B.pairing proof (kzg_settings.g2_points 1 - z • B.g2gen)

end SpecSide

section ConcreteInstances

instance : Fact (Nat.Prime 5) := ⟨by norm_num⟩

/-- A concrete backend over the field with five elements, used to evaluate the
development on explicit inputs: every byte string decodes, every point is
accepted, the hash is constant zero. -/
def testBackend : Backend 1 (ZMod 5) (ZMod 5) (ZMod 5) (ZMod 5) where
  g1gen := 1
  g2gen := 1
  pairing := fun a b => a * b
  fromCompressed := fun _ => some 1
  toCompressed := fun _ _ => 0
  scalarFromBytes := fun _ => some 1
  is_identity := fun _ => true
  is_on_curve := fun _ => true
  sha256 := fun _ _ => 0
  sbb := fun a b borrow => (a - b - borrow, 0)
  MODULUS := fun _ => 0
  domainTag := []
  blobToPoly := fun _ => .ok [0]

/-- A concrete backend with a non-trivial validity predicate: only `0` counts
as the identity and only `1` counts as on-curve. -/
def testBackendV : Backend 1 (ZMod 5) (ZMod 5) (ZMod 5) (ZMod 5) where
  g1gen := 1
  g2gen := 1
  pairing := fun a b => a * b
  fromCompressed := fun _ => some 1
  toCompressed := fun _ _ => 0
  scalarFromBytes := fun _ => some 1
  is_identity := fun g => decide (g = 0)
  is_on_curve := fun g => decide (g = 1)
  sha256 := fun _ _ => 0
  sbb := fun a b borrow => (a - b - borrow, 0)
  MODULUS := fun _ => 0
  domainTag := []
  blobToPoly := fun _ => .ok [0]

/-- A concrete backend over `ZMod 7` scalars with trivial groups, a non-constant
digest, non-zero discarded borrows and a junk `MODULUS`. -/
def testBackend7 : Backend 1 (ZMod 7) Unit Unit Unit where
  g1gen := ()
  g2gen := ()
  pairing := fun _ _ => ()
  fromCompressed := fun _ => some ()
  toCompressed := fun _ _ => 0
  scalarFromBytes := fun _ => some 1
  is_identity := fun _ => true
  is_on_curve := fun _ => true
  sha256 := fun _ k => UInt8.ofNat k.1
  sbb := fun a b borrow => (a - b - borrow, 1)
  MODULUS := fun _ => 99
  domainTag := [72, 101]
  blobToPoly := fun _ => .ok [0]

/-- Concrete one-root trusted setup over the field with five elements. -/
def testSettings : KzgSettings 1 (ZMod 5) (ZMod 5) where
  roots_of_unity := fun _ => 1
  g2_points := fun _ => 1

/-- Concrete two-root trusted setup: the square roots of unity 1 and 4 in the
field with five elements. -/
def testSettings2 : KzgSettings 2 (ZMod 5) (ZMod 5) where
  roots_of_unity := ![1, 4]
  g2_points := fun _ => 1

/-- The all-zero blob for `n = 1`. -/
def zeroBlob : Blob 1 := fun _ => 0

/-- The all-zero 48-byte string. -/
def zeroBytes48 : Bytes48 := fun _ => 0

/-- The all-zero 32-byte string. -/
def zeroBytes32 : Bytes32 := fun _ => 0

end ConcreteInstances

section Claims

/-- C1: for every backend and trusted setup, and all commitment, z, y, and
proof byte inputs that decode successfully, `verify_kzg_proof` returns `Ok b`
where `b` is true exactly when the pairing of `commitment - y * G1generator`
with the G2 generator equals the pairing of `proof` with
`setup.g2_points[1] - z * G2generator`. -/
theorem claim_C1_verify_kzg_proof_pairing [CommRing Fr] [DecidableEq GT]
    [SMul Fr G1] [SMul Fr G2] [Sub G1] [Sub G2] (B : Backend n Fr G1 G2 GT)
    (kzg_settings : KzgSettings n Fr G2) (commitment_bytes : Bytes48)
    (z_bytes y_bytes : Bytes32) (proof_bytes : Bytes48)
    (commitment proof : G1) (z y : Fr)
    (hz : safe_scalar_affine_from_bytes B z_bytes = .ok z)
    (hy : safe_scalar_affine_from_bytes B y_bytes = .ok y)
    (hc : safe_g1_affine_from_bytes B commitment_bytes = .ok commitment)
    (hp : safe_g1_affine_from_bytes B proof_bytes = .ok proof) :
    ∃ b : Bool,
      verify_kzg_proof B commitment_bytes z_bytes y_bytes proof_bytes kzg_settings = .ok b ∧
      (b = true ↔ spec_single_pairing_identity B kzg_settings commitment z y proof) := by
  refine ⟨decide (spec_single_pairing_identity B kzg_settings commitment z y proof),
    ?_, decide_eq_true_iff⟩
  simp only [verify_kzg_proof]
  rw [hz, hy, hc, hp]
  rfl

/-- Witness for C1: the concrete backend over the field with five elements,
all-zero byte inputs, all of which decode. -/
theorem claim_C1_witness :
    ∃ b : Bool,
      verify_kzg_proof testBackend zeroBytes48 zeroBytes32 zeroBytes32 zeroBytes48
        testSettings = .ok b ∧
      (b = true ↔ spec_single_pairing_identity testBackend testSettings 1 1 1 1) :=
  claim_C1_verify_kzg_proof_pairing testBackend testSettings zeroBytes48 zeroBytes32
    zeroBytes32 zeroBytes48 1 1 1 1 rfl rfl rfl rfl

/-- C2: the aggregated batch check is an unimplemented stub.  On a batch of two
well-formed items that passes the length checks, decoding, curve validation,
and the per-item challenge derivation and evaluation, the call reaches
`verify_kzg_proof_batch`, whose body is `todo!()`, and panics with
"not yet implemented" instead of returning a boolean or a typed error. -/
theorem claim_C2_batch_of_two_panics :
    verify_blob_kzg_proof_batch testBackend [zeroBlob, zeroBlob]
      [zeroBytes48, zeroBytes48] [zeroBytes48, zeroBytes48] testSettings =
      .panicked "not yet implemented" := by
  rfl

/-- C3: the empty batch returns Ok true, and the singleton batch returns
exactly the result of the single-blob verification on its item. -/
theorem claim_C3_batch_empty_singleton [Field Fr] [DecidableEq Fr] [DecidableEq GT]
    [SMul Fr G1] [SMul Fr G2] [Sub G1] [Sub G2] (B : Backend n Fr G1 G2 GT)
    (kzg_settings : KzgSettings n Fr G2) (b : Blob n) (c p : Bytes48) :
    verify_blob_kzg_proof_batch B [] [] [] kzg_settings = .ok true ∧
    verify_blob_kzg_proof_batch B [b] [c] [p] kzg_settings =
      RustOutcome.ofExcept (verify_blob_kzg_proof B b c p kzg_settings) :=
  ⟨rfl, rfl⟩

/-- C4 counterexample: with empty blobs but one commitment the three array
lengths disagree, yet the call returns Ok true instead of failing with a
length-mismatch error, because the emptiness fast path runs first. -/
theorem claim_C4_counterexample :
    ([] : List (Blob 1)).length ≠ [zeroBytes48].length ∧
    verify_blob_kzg_proof_batch testBackend [] [zeroBytes48] [] testSettings = .ok true :=
  ⟨by decide, rfl⟩

/-- C4 (amended): whenever at least two blobs are supplied and the three array
lengths do not all agree, the call fails with the InvalidBytesLength
(length-mismatch) error; the failure is uniform in the backend, so no
curve-point decoding or curve arithmetic can have run. -/
theorem claim_C4_amended_length_mismatch [Field Fr] [DecidableEq Fr] [DecidableEq GT]
    [SMul Fr G1] [SMul Fr G2] [Sub G1] [Sub G2] (B : Backend n Fr G1 G2 GT)
    (kzg_settings : KzgSettings n Fr G2) (blobs : List (Blob n))
    (commitments_bytes proofs_bytes : List Bytes48)
    (h2 : 2 ≤ blobs.length)
    (hmis : blobs.length ≠ commitments_bytes.length ∨
      blobs.length ≠ proofs_bytes.length) :
    ∃ msg, verify_blob_kzg_proof_batch B blobs commitments_bytes proofs_bytes
      kzg_settings = .err (KzgError.InvalidBytesLength msg) := by
  have hne : blobs.isEmpty = false := by
    cases blobs with
    | nil => simp at h2
    | cons x xs => rfl
  have h1 : ¬ blobs.length = 1 := by omega
  rw [verify_blob_kzg_proof_batch, if_neg (by simp [hne]), if_neg h1]
  by_cases hc : blobs.length = commitments_bytes.length
  · have hp : blobs.length ≠ proofs_bytes.length := by tauto
    rw [if_neg (fun h => h hc), if_pos hp]
    exact ⟨_, rfl⟩
  · rw [if_pos hc]
    exact ⟨_, rfl⟩

/-- Witness for C4 (amended): two blobs against one commitment and no proofs. -/
theorem claim_C4_amended_witness :
    2 ≤ ([zeroBlob, zeroBlob] : List (Blob 1)).length ∧
    (∃ msg, verify_blob_kzg_proof_batch testBackend [zeroBlob, zeroBlob] [zeroBytes48]
      [] testSettings = .err (KzgError.InvalidBytesLength msg)) :=
  ⟨by decide, claim_C4_amended_length_mismatch testBackend testSettings
    [zeroBlob, zeroBlob] [zeroBytes48] [] (by decide) (Or.inl (by decide))⟩

/-- C5: evaluating a full-length polynomial at the i-th domain node of a
duplicate-free domain returns the i-th stored value directly; the same holds
for every inversion routine substituted for `batch_inversion`, so no inversion
is performed on this path. -/
theorem claim_C5_evaluate_at_node [Field Fr] [DecidableEq Fr]
    (kzg_settings : KzgSettings n Fr G2) (poly : List Fr) (i : Fin n)
    (hlen : poly.length = n)
    (hinj : Function.Injective kzg_settings.roots_of_unity) :
    evaluate_polynomial_in_evaluation_form poly (kzg_settings.roots_of_unity i)
      kzg_settings = .ok (poly.getD i.1 0) ∧
    ∀ bi : List Fr → List Fr → Except KzgError (List Fr),
      evaluateGen bi poly (kzg_settings.roots_of_unity i) kzg_settings =
        .ok (poly.getD i.1 0) :=
  ⟨evaluateGen_at_node kzg_settings poly i hlen hinj batch_inversion,
   fun bi => evaluateGen_at_node kzg_settings poly i hlen hinj bi⟩

/-- Witness for C5: the two-root setup over the field with five elements,
polynomial [2, 3], evaluated at the second root (4), with a failing inversion
routine substituted to confirm it is never consulted. -/
theorem claim_C5_witness :
    evaluate_polynomial_in_evaluation_form [2, 3]
      (testSettings2.roots_of_unity 1) testSettings2 = .ok 3 ∧
    evaluateGen (fun _ _ => .error (KzgError.BadArgs "no inversion available")) [2, 3]
      (testSettings2.roots_of_unity 1) testSettings2 = .ok 3 :=
  ⟨(claim_C5_evaluate_at_node testSettings2 [2, 3] 1 (by decide) (by decide)).1,
   (claim_C5_evaluate_at_node testSettings2 [2, 3] 1 (by decide) (by decide)).2 _⟩

/-- C6: for a full-length polynomial and a point x distinct from every domain
node (with N invertible in the scalar field, as it is for the real field),
evaluation returns (1/N) * (x^N - 1) * sum over i of
(x - domain_i)^{-1} * domain_i * poly_i. -/
theorem claim_C6_evaluate_general [Field Fr] [DecidableEq Fr]
    (kzg_settings : KzgSettings n Fr G2) (poly : List Fr) (x : Fr)
    (hlen : poly.length = n)
    (hx : ∀ i : Fin n, x ≠ kzg_settings.roots_of_unity i)
    (hn : (n : Fr) ≠ 0) :
    evaluate_polynomial_in_evaluation_form poly x kzg_settings =
      .ok ((n : Fr)⁻¹ * (x ^ n - 1) *
        ∑ i : Fin n, (x - kzg_settings.roots_of_unity i)⁻¹ *
          kzg_settings.roots_of_unity i * poly.getD i.1 0) :=
  evaluate_general_value kzg_settings poly x hlen hx hn

/-- Witness for C6: polynomial [2, 3] over the field with five elements,
evaluated at x = 2, which is neither of the domain nodes 1 and 4. -/
theorem claim_C6_witness :
    evaluate_polynomial_in_evaluation_form [2, 3] (2 : ZMod 5) testSettings2 =
      .ok (((2 : ℕ) : ZMod 5)⁻¹ * ((2 : ZMod 5) ^ 2 - 1) *
        ∑ i : Fin 2, ((2 : ZMod 5) - testSettings2.roots_of_unity i)⁻¹ *
          testSettings2.roots_of_unity i * ([2, 3] : List (ZMod 5)).getD i.1 0) :=
  claim_C6_evaluate_general testSettings2 [2, 3] 2 (by decide) (by decide) (by decide)

/-- C7: with an output buffer whose contents differ from the input sequence,
`batch_inversion` fails with the zero-input error exactly when some input
element is zero, and on all-nonzero inputs it succeeds with the elementwise
modular inverses. -/
theorem claim_C7_batch_inversion [Field Fr] [DecidableEq Fr] (out a : List Fr)
    (hne : a ≠ out) :
    (batch_inversion out a = .error (KzgError.BadArgs "Zero input") ↔ (0 : Fr) ∈ a) ∧
    ((0 : Fr) ∉ a → ∃ res : List Fr,
      batch_inversion out a = .ok res ∧ res.length = a.length ∧
      ∀ (i : ℕ) (h : i < a.length) (h2 : i < res.length),
        res.get ⟨i, h2⟩ = (a.get ⟨i, h⟩)⁻¹) :=
  ⟨batch_inversion_zero_iff out a hne, fun hz => batch_inversion_ok out a hne hz⟩

/-- Witness for C7: inputs [2, 3] over the field with five elements against a
zeroed output buffer. -/
theorem claim_C7_witness :
    (([2, 3] : List (ZMod 5)) ≠ [0, 0]) ∧
    ((batch_inversion ([0, 0] : List (ZMod 5)) [2, 3] =
        .error (KzgError.BadArgs "Zero input") ↔ (0 : ZMod 5) ∈ [2, 3]) ∧
      ((0 : ZMod 5) ∉ ([2, 3] : List (ZMod 5)) → ∃ res : List (ZMod 5),
        batch_inversion ([0, 0] : List (ZMod 5)) [2, 3] = .ok res ∧
          res.length = ([2, 3] : List (ZMod 5)).length ∧
        ∀ (i : ℕ) (h : i < ([2, 3] : List (ZMod 5)).length) (h2 : i < res.length),
          res.get ⟨i, h2⟩ = (([2, 3] : List (ZMod 5)).get ⟨i, h⟩)⁻¹)) :=
  ⟨by decide, claim_C7_batch_inversion [0, 0] [2, 3] (by decide)⟩

/-- C8: validation scans all commitments first: a commitment that is neither
the identity nor on-curve fails the whole call with the bad-commitment error
even when some proof is also invalid; the bad-proof error arises only when
every commitment is valid and some proof is invalid; otherwise Ok. -/
theorem claim_C8_validate_batched_input (B : Backend n Fr G1 G2 GT)
    (commitments proofs : List G1) :
    ((∃ c ∈ commitments, B.is_identity c = false ∧ B.is_on_curve c = false) →
      validate_batched_input B commitments proofs =
        .error (KzgError.BadArgs "Invalid commitment")) ∧
    ((∀ c ∈ commitments, B.is_identity c = true ∨ B.is_on_curve c = true) →
      (∃ p ∈ proofs, B.is_identity p = false ∧ B.is_on_curve p = false) →
      validate_batched_input B commitments proofs =
        .error (KzgError.BadArgs "Invalid proof")) ∧
    ((∀ c ∈ commitments, B.is_identity c = true ∨ B.is_on_curve c = true) →
      (∀ p ∈ proofs, B.is_identity p = true ∨ B.is_on_curve p = true) →
      validate_batched_input B commitments proofs = .ok ()) := by
  refine ⟨?_, ?_, ?_⟩
  · rintro ⟨c, hc, hc1, hc2⟩
    have hany : commitments.any
        (fun c => !(B.is_identity c) && !(B.is_on_curve c)) = true :=
      List.any_eq_true.mpr ⟨c, hc, by simp [hc1, hc2]⟩
    rw [validate_batched_input_eq, if_pos hany]
  · intro hall hex
    have h1 : commitments.any
        (fun c => !(B.is_identity c) && !(B.is_on_curve c)) = false := by
      rw [List.any_eq_false]
      intro c hc
      rcases hall c hc with h | h <;> simp [h]
    obtain ⟨p, hp, hp1, hp2⟩ := hex
    have h2 : proofs.any (fun p => !(B.is_identity p) && !(B.is_on_curve p)) = true :=
      List.any_eq_true.mpr ⟨p, hp, by simp [hp1, hp2]⟩
    rw [validate_batched_input_eq, if_neg (by simp [h1]), if_pos h2]
  · intro hall1 hall2
    have h1 : commitments.any
        (fun c => !(B.is_identity c) && !(B.is_on_curve c)) = false := by
      rw [List.any_eq_false]
      intro c hc
      rcases hall1 c hc with h | h <;> simp [h]
    have h2 : proofs.any (fun p => !(B.is_identity p) && !(B.is_on_curve p)) = false := by
      rw [List.any_eq_false]
      intro p hp
      rcases hall2 p hp with h | h <;> simp [h]
    rw [validate_batched_input_eq, if_neg (by simp [h1]), if_neg (by simp [h2])]

/-- Witness for C8: under the validity predicate of `testBackendV` the element
2 is neither identity (0) nor on-curve (1); with bad commitment list [2] and
equally bad proof list [2] the call reports the bad commitment. -/
theorem claim_C8_witness :
    (∃ c ∈ ([2] : List (ZMod 5)), testBackendV.is_identity c = false ∧
      testBackendV.is_on_curve c = false) ∧
    validate_batched_input testBackendV [2] [2] =
      .error (KzgError.BadArgs "Invalid commitment") :=
  ⟨by decide, (claim_C8_validate_batched_input testBackendV [2] [2]).1 (by decide)⟩

/-- C9: for every backend over scalars ZMod r — in particular for every
subtract-with-borrow routine and every MODULUS constant, since the borrow
chain is discarded — `compute_challenge` returns Ok of the SHA-256 digest of
the fixed transcript read as a 256-bit big-endian integer and reduced into
ZMod r, and the value of that scalar is the canonical residue mod r. -/
theorem claim_C9_compute_challenge_canonical {r : ℕ} [NeZero r]
    (B : Backend n (ZMod r) G1 G2 GT) (blob : Blob n) (commitment : G1) :
    compute_challenge B blob commitment =
      .ok ((digestBeNat (B.sha256 (challengeTranscript B blob commitment)) : ZMod r)) ∧
    ((digestBeNat (B.sha256 (challengeTranscript B blob commitment)) : ZMod r)).val =
      digestBeNat (B.sha256 (challengeTranscript B blob commitment)) % r :=
  ⟨compute_challenge_ok B blob commitment, ZMod.val_natCast _⟩

/-- Witness for C9: the ZMod 7 backend with a non-constant digest, non-zero
discarded borrows and a junk MODULUS, on the all-zero blob. -/
theorem claim_C9_witness :
    compute_challenge testBackend7 zeroBlob () =
      .ok ((digestBeNat (testBackend7.sha256
        (challengeTranscript testBackend7 zeroBlob ())) : ZMod 7)) ∧
    ((digestBeNat (testBackend7.sha256
        (challengeTranscript testBackend7 zeroBlob ())) : ZMod 7)).val =
      digestBeNat (testBackend7.sha256
        (challengeTranscript testBackend7 zeroBlob ())) % 7 :=
  claim_C9_compute_challenge_canonical testBackend7 zeroBlob ()

/-- C10: the aliasing guard of `batch_inversion` compares slice contents, not
storage: whenever the initial contents of the output buffer equal the input
sequence elementwise, the call fails immediately with the
destination-same-as-source error, before any computation. -/
theorem claim_C10_aliasing_guard [Field Fr] [DecidableEq Fr] (out a : List Fr)
    (h : a = out) :
    batch_inversion out a =
      .error (KzgError.BadArgs "Destination is the same as source") := by
  rw [batch_inversion, if_pos h]

/-- Witness for C10: two buffers holding the equal contents [2, 3]. -/
theorem claim_C10_witness :
    batch_inversion ([2, 3] : List (ZMod 5)) [2, 3] =
      .error (KzgError.BadArgs "Destination is the same as source") :=
  claim_C10_aliasing_guard [2, 3] [2, 3] rfl

end Claims

end KzgRs
